import Mathlib

/-!
Verification development for the Living-scroll character engine.

Shallow embedding of:
* `src/modules/character_sheet/model/schema.py` (decision record),
* `src/modules/character_sheet/services/rules_engine.py` (rehydration engine),
* `src/modules/compendium/service.py` (rule-dataset lookup),
* `src/modules/character_sheet/ui/builder/tabs/leveling.py` (candidate lists).

Python `dict`s (insertion ordered, Python >= 3.7) are embedded as
association lists in insertion order; dict assignment updates the first
matching key in place, otherwise appends.  Machine integers are `Int`.
The sheet-side container classes (`CharacterSheet`, `CharacterIdentity`,
`AbilityBlock`, `ProficiencySet`, `ClassProgression`) live in
`modules/character_sheet/model/model.py`, which is not part of the corpus;
their fields and defaults are modelled from the spec (section 3) and from
every constructor/attribute use in the engine and UI sources.
-/

namespace LivingScroll

/-! ### Decision record (source: `model/schema.py`) -/

/-- Core identity decisions (`IdentityData` in `schema.py`). -/
structure IdentityData where
  name : String := ""
  ancestry : String := ""
  ancestry_subtype : String := ""
  background : String := ""
  alignment : String := ""
  player_name : String := ""
  portrait_path : String := ""
  xp : Int := 0
  level_cap : Int := 20
deriving DecidableEq

/-- A single class entry in the progression (`ClassLevelData` in `schema.py`).
`feature_choices` is a Python dict `feature_key -> selection_value`. -/
structure ClassLevelData where
  class_name : String
  level : Int := 1
  subclass : Option String := none
  feature_choices : List (String × String) := []
deriving DecidableEq

/-- Modelled from the spec: an inventory item.  The Python type is
`Dict[str, Any]`; only its identity matters to the engine (the engine never
inspects items), so it is embedded as a wrapper around an uninterpreted
payload string. -/
structure EquipItem where
  raw : String
deriving DecidableEq

/-- The root save-file object (`CharacterData` in `schema.py`): decisions
only, no computed results. -/
structure CharacterData where
  version : String := "1.0"
  id : String := ""
  identity : IdentityData := {}
  base_stats : List (String × Int) :=
    [("STR", 10), ("DEX", 10), ("CON", 10), ("INT", 10), ("WIS", 10), ("CHA", 10)]
  classes : List ClassLevelData := []
  background_choices : List (String × String) := []
  equipment : List EquipItem := []
  notes : List (String × String) := []
deriving DecidableEq

/-! ### Computed sheet (modelled from the spec, section 3)

`modules/character_sheet/model/model.py` is not in the corpus.  Field
names and defaults follow the spec and the attribute accesses in
`rules_engine.py` / `leveling.py`: ability blocks default to score 10 with
no save proficiency, the proficiency set starts empty, the consolidated
class list starts empty. -/

/-- Modelled from the spec: one consolidated class-progression entry of the
sheet (constructed in `rules_engine.py` as
`ClassProgression(name=..., level=..., subclass=...)`). -/
structure ClassProgression where
  name : String
  level : Int
  subclass : Option String := none
deriving DecidableEq

/-- Modelled from the spec: one of the six ability blocks (base score plus
save-proficiency flag; spec section 3 fixes the default score at 10). -/
structure AbilityBlock where
  score : Int := 10
  save_proficient : Bool := false
deriving DecidableEq

/-- Modelled from the spec: skill map (0 none / 1 proficient / 2 expertise)
plus armor/weapon/tool lists, all empty on construction. -/
structure ProficiencySet where
  skills : List (String × Int) := []
  armor : List String := []
  weapons : List String := []
  tools : List String := []
deriving DecidableEq

/-- Modelled from the spec: sheet identity mirror plus the consolidated
class list (fields written by `_apply_identity` and `_apply_classes`). -/
structure CharacterIdentity where
  name : String := ""
  ancestry : String := ""
  ancestry_subtype : String := ""
  background : String := ""
  alignment : String := ""
  player : String := ""
  experience : Int := 0
  level_cap : Int := 20
  portrait_path : String := ""
  classes : List ClassProgression := []
deriving DecidableEq

/-- The six default ability blocks of a fresh sheet (spec: hydrating a
default decision record yields all six abilities at score 10). -/
def defaultAbilities : List (String × AbilityBlock) :=
  [("STR", {}), ("DEX", {}), ("CON", {}), ("INT", {}), ("WIS", {}), ("CHA", {})]

/-- Modelled from the spec: the derived sheet (`CharacterSheet()` constructs
all defaults; `equipment` is the copied-through stateful item list). -/
structure CharacterSheet where
  identity : CharacterIdentity := {}
  abilities : List (String × AbilityBlock) := defaultAbilities
  proficiencies : ProficiencySet := {}
  equipment : List EquipItem := []
deriving DecidableEq

/-! ### Python dict / str primitives -/

/-- Python `d.get(k, default)` on a string-keyed dict. -/
def dictGet (m : List (String × Int)) (k : String) (d : Int) : Int :=
  match m.find? (fun p => p.1 == k) with
  | some p => p.2
  | none => d

/-- Python `d[k] = v`: update the first (unique) matching key in place,
otherwise append at the end (insertion order). -/
def dictSet : List (String × Int) → String → Int → List (String × Int)
  | [], k, v => [(k, v)]
  | (k', v') :: rest, k, v =>
    if k' = k then (k, v) :: rest else (k', v') :: dictSet rest k v

/-- Python `if k in d: d[k] = f(d[k])` on the abilities dict: mutate the
entry in place when the key is present, no-op otherwise. -/
def abilitiesModify (m : List (String × AbilityBlock)) (k : String)
    (f : AbilityBlock → AbilityBlock) : List (String × AbilityBlock) :=
  m.map (fun p => if p.1 = k then (p.1, f p.2) else p)

/-- Python `d.get(k)` on the abilities dict. -/
def abilitiesGet? (m : List (String × AbilityBlock)) (k : String) : Option AbilityBlock :=
  (m.find? (fun p => p.1 == k)).map (fun p => p.2)

/-- The whitespace characters stripped by Python `str.strip()` (ASCII). -/
def pyIsSpace (c : Char) : Bool :=
  c == ' ' || c == '\t' || c == '\n' || c == '\x0d' || c == '\x0b' || c == '\x0c'

/-- Drop characters satisfying `p` from both ends of a character list
(Python `str.strip`). -/
def stripEnds (p : Char → Bool) (l : List Char) : List Char :=
  ((l.dropWhile p).reverse.dropWhile p).reverse

/-- Characters kept verbatim by the `_key` regex in `compendium/service.py`
(`[^a-z0-9]+` is replaced, so `a`-`z` and `0`-`9` are kept). -/
def isKeyChar (c : Char) : Bool :=
  ('a' ≤ c && c ≤ 'z') || ('0' ≤ c && c ≤ '9')

/-- `re.sub(r"[^a-z0-9]+", "_", s)`: replace each maximal run of
non-key characters with a single underscore.  The flag records whether the
previous character belonged to a non-key run already rewritten to `_`. -/
def collapseAux : Bool → List Char → List Char
  | _, [] => []
  | inRun, c :: rest =>
    if isKeyChar c then c :: collapseAux false rest
    else if inRun then collapseAux true rest
    else '_' :: collapseAux true rest

/-- Replace each maximal run of non-key characters with one underscore. -/
def collapseNonKey (l : List Char) : List Char :=
  collapseAux false l

/-- Python `.lower()` (ASCII letters; `Char.toLower` lowercases exactly
`A`-`Z`, matching Python on the ASCII range). -/
def pyLower (s : String) : String := ⟨s.toList.map Char.toLower⟩

/-- `_key` from `compendium/service.py`:
`re.sub(r"[^a-z0-9]+", "_", (name or "").strip().lower()).strip("_")`. -/
def pyKey (name : String) : String :=
  ⟨stripEnds (fun c => c == '_')
    (collapseNonKey ((stripEnds pyIsSpace name.toList).map Char.toLower))⟩

/-- Lookup in a name-indexed record dict (`dict.get`). -/
def lookupA {α : Type} (m : List (String × α)) (k : String) : Option α :=
  (m.find? (fun p => p.1 == k)).map (fun p => p.2)

/-- Auxiliary scan for the Python substring test: does `needle` occur as a
contiguous run starting at some position of `hay`? -/
def containsAux : List Char → List Char → Bool
  | [], needle => needle.isEmpty
  | c :: t, needle => needle.isPrefixOf (c :: t) || containsAux t needle

/-- Python `needle in haystack` on strings (substring test). -/
def strContainsSub (s sub : String) : Bool :=
  containsAux s.toList sub.toList

/-- Python truthiness of an `Optional[str]`: `None` and `""` are falsy. -/
def pyTruthyOpt : Option String → Bool
  | none => false
  | some s => s != ""

/-- The in-place `sheet.abilities[save].save_proficient = True` mutation. -/
def setSaveProf (b : AbilityBlock) : AbilityBlock :=
  { b with save_proficient := true }

/-! ### Rule dataset accessor (source: `compendium/service.py`)

A `Compendium` holds the `_classes` / `_backgrounds` dicts built by
`_index_by_name` (normalized name -> record, unique keys).  Record shapes
follow the accesses in `rules_engine.py`: a missing sub-mapping and an
empty one are observationally equal (every access uses `.get(..., [])` /
`.get(..., {})`), so list fields default to `[]` and the falsy
`multiclassing.proficiencies` dict is `none`. -/

/-- The armor/weapon lists under a class record's
`multiclassing.proficiencies` table. -/
structure MCProficiencies where
  armor : List String := []
  weapons : List String := []
deriving DecidableEq

/-- A class record as consumed by the engine: `proficiencies.armor`,
`proficiencies.weapons`, `saves`, and the optional
`multiclassing.proficiencies` table (`none` when absent or empty/falsy). -/
structure ClassRecord where
  armor : List String := []
  weapons : List String := []
  saves : List String := []
  multiclassing : Option MCProficiencies := none
deriving DecidableEq

/-- A background record as consumed by the engine:
`proficiencies.skills` and `proficiencies.tools`. -/
structure BackgroundRecord where
  skills : List String := []
  tools : List String := []
deriving DecidableEq

/-- The rule compendium: the name-indexed class and background dicts. -/
structure Compendium where
  classes : List (String × ClassRecord) := []
  backgrounds : List (String × BackgroundRecord) := []
deriving DecidableEq

/-- `Compendium.class_record`: `self._classes.get(_key(name))`. -/
def Compendium.class_record (c : Compendium) (name : String) : Option ClassRecord :=
  lookupA c.classes (pyKey name)

/-- `Compendium.background_record`: `self._backgrounds.get(_key(name))`. -/
def Compendium.background_record (c : Compendium) (name : String) : Option BackgroundRecord :=
  lookupA c.backgrounds (pyKey name)

/-! ### Rehydration engine (source: `services/rules_engine.py`)

The engine is embedded in state-passing style over the pair
(decision record, sheet): every Python statement of `hydrate` and its
helpers assigns only into the sheet (or locals), which the embedding makes
explicit by threading the decision record unchanged next to the sheet. -/

/-- The state visible to `RulesEngine.hydrate`: the decision record
argument and the sheet under construction. -/
structure HState where
  data : CharacterData
  sheet : CharacterSheet
deriving DecidableEq

/-- `_apply_identity`: map simple identity fields onto the sheet. -/
def applyIdentity (st : HState) : HState :=
  let i_src := st.data.identity
  { st with sheet := { st.sheet with identity :=
      { st.sheet.identity with
          name := i_src.name
          ancestry := i_src.ancestry
          ancestry_subtype := i_src.ancestry_subtype
          background := i_src.background
          alignment := i_src.alignment
          player := i_src.player_name
          experience := i_src.xp
          level_cap := i_src.level_cap
          portrait_path := i_src.portrait_path } } }

/-- `_apply_base_stats`: for each `(ability, score)` in `data.base_stats`,
set the sheet ability's score when the ability code is present. -/
def applyBaseStats (st : HState) : HState :=
  { st with sheet := { st.sheet with abilities :=
      (st.data.base_stats.foldl
        (fun ab kv => abilitiesModify ab kv.1 (fun b => { b with score := kv.2 }))
        st.sheet.abilities) } }

/-- The Python `tool not in list` guarded append of `_apply_background`. -/
def addTool (ts : List String) (t : String) : List String :=
  if t ∈ ts then ts else ts ++ [t]

/-- `_apply_background`: resolve `identity.background`; on a falsy key or a
lookup miss return unchanged; otherwise set each listed skill to 1 and
append each listed tool not already present.  The background-equipment
block in the source is a `pass`. -/
def applyBackground (c : Compendium) (st : HState) : HState :=
  let bg_id := st.data.identity.background
  if bg_id == "" then st
  else
    match c.background_record bg_id with
    | none => st
    | some background =>
      let profs := st.sheet.proficiencies
      let skills := background.skills.foldl (fun m skill => dictSet m skill 1) profs.skills
      let tools := background.tools.foldl addTool profs.tools
      { st with sheet := { st.sheet with proficiencies :=
          { profs with skills := skills, tools := tools } } }

/-- The body of the feature-choice loop at the end of `_apply_classes`:
keys containing `_skill_` with a truthy value set the selected skill to 2
when the key also contains `_expertise`, else to 1 unless already 2; the
`_asi_` branch and unrecognized keys are no-ops. -/
def applyFeatureChoice (sheet : CharacterSheet) (kv : String × String) : CharacterSheet :=
  let feat_key := kv.1
  let selection := kv.2
  if strContainsSub feat_key "_skill_" && selection != "" then
    if strContainsSub feat_key "_expertise" then
      { sheet with proficiencies := { sheet.proficiencies with
          skills := dictSet sheet.proficiencies.skills selection 2 } }
    else
      if dictGet sheet.proficiencies.skills selection 0 < 2 then
        { sheet with proficiencies := { sheet.proficiencies with
            skills := dictSet sheet.proficiencies.skills selection 1 } }
      else sheet
  else sheet

/-- The in-place consolidation of an existing entry in `_apply_classes`:
`existing.level = max(existing.level, cls_data.level)` and
`if cls_data.subclass: existing.subclass = cls_data.subclass`. -/
def consolidateEntry (existing : ClassProgression) (cls : ClassLevelData) : ClassProgression :=
  { existing with
      level := max existing.level cls.level
      subclass := if pyTruthyOpt cls.subclass then cls.subclass else existing.subclass }

/-- Replace the first entry with the given class name (the effect of the
in-place mutation of the element `next(...)` found in the sheet list). -/
def setFirstByName : List ClassProgression → String → ClassProgression → List ClassProgression
  | [], _, _ => []
  | p :: rest, n, e =>
    if p.name = n then e :: rest else p :: setFirstByName rest n e

/-- The `ClassProgression(name=cls_data.class_name, level=cls_data.level,
subclass=cls_data.subclass)` constructor call in `_apply_classes`. -/
def newEntry (cls : ClassLevelData) : ClassProgression :=
  { name := cls.class_name, level := cls.level, subclass := cls.subclass }

/-- One iteration of the `for cls_data in data.classes` loop of
`_apply_classes`: consolidate the class entry, apply base-feature grants on
first occurrence (full grants when the appended entry compares equal to
`sheet.identity.classes[0]`, else the multiclass subset), then apply the
entry's feature choices. -/
def applyClassEntry (c : Compendium) (sheet : CharacterSheet) (cls : ClassLevelData) :
    CharacterSheet :=
  match sheet.identity.classes.find? (fun p => p.name == cls.class_name) with
  | some existing =>
    -- is_new_class = False: the base-feature grant block is skipped
    let entry := consolidateEntry existing cls
    let classes' := setFirstByName sheet.identity.classes cls.class_name entry
    let sheet := { sheet with identity := { sheet.identity with classes := classes' } }
    cls.feature_choices.foldl applyFeatureChoice sheet
  | none =>
    let entry : ClassProgression := newEntry cls
    let classes' := sheet.identity.classes ++ [entry]
    let sheet := { sheet with identity := { sheet.identity with classes := classes' } }
    -- is_primary = (sheet.identity.classes[0] == entry), dataclass equality
    let is_primary := classes'.head? == some entry
    let sheet :=
      match c.class_record (pyLower cls.class_name) with
      | none => sheet
      | some class_record =>
        if is_primary then
          let profs := sheet.proficiencies
          let sheet := { sheet with proficiencies := { profs with
              armor := profs.armor ++ class_record.armor,
              weapons := profs.weapons ++ class_record.weapons } }
          { sheet with abilities :=
              (class_record.saves.foldl
                (fun ab save => abilitiesModify ab save setSaveProf)
                sheet.abilities) }
        else
          match class_record.multiclassing with
          | none => sheet
          | some mc_profs =>
            { sheet with proficiencies := { sheet.proficiencies with
                armor := sheet.proficiencies.armor ++ mc_profs.armor,
                weapons := sheet.proficiencies.weapons ++ mc_profs.weapons } }
    cls.feature_choices.foldl applyFeatureChoice sheet

/-- `_apply_classes`: walk the decision `classes` entries in sequence
order. -/
def applyClasses (c : Compendium) (st : HState) : HState :=
  { st with sheet := st.data.classes.foldl (applyClassEntry c) st.sheet }

/-- `RulesEngine.hydrate` in state-passing form: construct a fresh sheet,
apply identity, base stats, the proficiency reset, the background, then the
classes.  Steps 6 and 7 of the source are `pass`/comment only. -/
def hydrateS (c : Compendium) (st : HState) : HState :=
  let st := { st with sheet := {} }
  let st := applyIdentity st
  let st := applyBaseStats st
  let st := { st with sheet := { st.sheet with proficiencies := {} } }
  let st := applyBackground c st
  let st := applyClasses c st
  st

/-- `RulesEngine.hydrate`: reconstruct a `CharacterSheet` from raw
decisions. -/
def hydrate (c : Compendium) (data : CharacterData) : CharacterSheet :=
  (hydrateS c { data := data, sheet := {} }).sheet

/-! ### Choice resolution (source: `ui/builder/tabs/leveling.py`)

The candidate-list constructions for the class skill dropdown
(`refresh_from_sheet`) and for feat-granted skill choices
(`_add_feat_options_to_entry`), parameterized by the local variables in
scope at those code regions (`available_all` from
`get_available_skill_proficiencies`, the class record's `skill_list`, the
slot's stored value). -/

/-- Modelled from the spec: a dropdown option
(`FeatureOptionChoice(label=..., value=..., enabled=...)` from
`modules/dnd24_mechanics/character_rules/models`, not in the corpus). -/
structure FeatureOptionChoice where
  label : String
  value : String
  enabled : Bool := true
deriving DecidableEq

/-- Code-point lexicographic `<=` on character lists: the comparison Python
uses for `str` in `list.sort(key=...)`. -/
def charListLe : List Char → List Char → Bool
  | [], _ => true
  | _ :: _, [] => false
  | a :: as, b :: bs => if a = b then charListLe as bs else decide (a < b)

/-- Python string `<=` (code-point lexicographic). -/
def pyStrLe (a b : String) : Bool := charListLe a.toList b.toList

/-- The skill-proficiency dropdown construction in `refresh_from_sheet`
(leveling.py): start from `available_all`, re-admit a stored value that is
absent from availability when it belongs to the class `skill_list`, filter
to the class list case-insensitively, then `final_choices.sort(key=lambda
x: x.label)` (a stable sort on the raw label). -/
def buildSkillDropdownChoices (available_all : List FeatureOptionChoice)
    (skill_list : List String) (current_val : String) : List FeatureOptionChoice :=
  let available_profs := available_all.map (fun opt => opt.value)
  let dropdown_options := available_all
  let dropdown_options :=
    if current_val != "" && !(available_profs.contains current_val) then
      if skill_list.contains current_val then
        dropdown_options ++ [{ label := current_val, value := current_val, enabled := true }]
      else dropdown_options
    else dropdown_options
  let skill_list_lower := skill_list.map pyLower
  let final_choices :=
    dropdown_options.filter (fun opt => skill_list_lower.contains (pyLower opt.value))
  final_choices.mergeSort (fun a b => pyStrLe a.label b.label)

/-- The feat skill-proficiency options construction in
`_add_feat_options_to_entry` (leveling.py): re-admit a stored value absent
from availability when the feat's skill list admits it, then filter to the
feat's skill list; no sort is applied. -/
def buildFeatSkillChoices (available_skills : List FeatureOptionChoice)
    (skills : List String) (current_skill : String) : List FeatureOptionChoice :=
  let available_profs := available_skills.map (fun opt => opt.value)
  let dropdown_options := available_skills
  let dropdown_options :=
    if current_skill != "" && !(available_profs.contains current_skill) then
      if skills == ["any"] || skills.contains "any" || skills.contains current_skill then
        dropdown_options ++ [{ label := current_skill, value := current_skill, enabled := true }]
      else dropdown_options
    else dropdown_options
  if skills == ["any"] || skills.contains "any" then dropdown_options
  else dropdown_options.filter (fun opt => skills.contains opt.value)

/-- The candidate-list ordering stated by the spec (section 4.2): sorted by
display label, case-insensitively. -/
def sortedByLabelCI (l : List FeatureOptionChoice) : Prop :=
  l.Pairwise (fun a b => pyStrLe (pyLower a.label) (pyLower b.label) = true)

/-! ### Specification-side helpers and concrete instances -/

/-- The armor/weapon grant a class entry contributes when it is not the
primary class: empty unless the entry introduces a new class whose record
is found and exposes a `multiclassing.proficiencies` table. -/
def mcGrants (c : Compendium) (sheet : CharacterSheet) (cls : ClassLevelData) :
    List String × List String :=
  if (sheet.identity.classes.find? (fun p => p.name == cls.class_name)).isSome then ([], [])
  else
    match c.class_record (pyLower cls.class_name) with
    | none => ([], [])
    | some class_record =>
      match class_record.multiclassing with
      | none => ([], [])
      | some mc_profs => (mc_profs.armor, mc_profs.weapons)

/-- Decision classes of the level-consolidation example:
`[{rogue,1},{rogue,2},{wizard,1},{rogue,3}]` in decision order. -/
def consolidationData : CharacterData :=
  { classes :=
      [ { class_name := "rogue", level := 1 },
        { class_name := "rogue", level := 2 },
        { class_name := "wizard", level := 1 },
        { class_name := "rogue", level := 3 } ] }

/-- A rogue class record with full and multiclass proficiency tables. -/
def rogueRecord : ClassRecord :=
  { armor := ["Light armor"],
    weapons := ["Simple weapons", "Martial weapons with Finesse"],
    saves := ["DEX", "INT"],
    multiclassing := some { armor := ["Light armor"], weapons := [] } }

/-- A background record granting two skills and two tools. -/
def criminalRecord : BackgroundRecord :=
  { skills := ["Sleight of Hand", "Stealth"],
    tools := ["Thieves Tools", "Gaming Set"] }

/-- A small compendium holding the rogue class and criminal background. -/
def witnessCompendium : Compendium :=
  { classes := [("rogue", rogueRecord)],
    backgrounds := [("criminal", criminalRecord)] }

/-- A sheet that already carries one consolidated class (so any class
introduced next is non-primary). -/
def fighterFirstSheet : CharacterSheet :=
  { identity := { classes := [{ name := "fighter", level := 1 }] } }

/-- A class-level decision entry introducing the rogue class. -/
def rogueEntry : ClassLevelData :=
  { class_name := "rogue", level := 1 }

/-- A decision record whose background key resolves against
`witnessCompendium` and whose inventory holds one item. -/
def criminalData : CharacterData :=
  { identity := { background := "criminal" },
    equipment := [{ raw := "longsword" }] }

/-- A decision record with an unresolvable background key. -/
def unknownBgData : CharacterData :=
  { identity := { background := "nonexistent_key" } }

/-- A sheet already holding expertise (level 2) in Stealth. -/
def expertSheet : CharacterSheet :=
  { proficiencies := { skills := [("Stealth", 2)] } }

/-- A dropdown option labelled in lower case. -/
def arcanaChoice : FeatureOptionChoice := { label := "arcana", value := "arcana" }

/-- A dropdown option labelled in title case. -/
def stealthChoice : FeatureOptionChoice := { label := "Stealth", value := "Stealth" }

/-- A sheet whose consolidated list already holds a level-1 rogue. -/
def rogueFirstSheet : CharacterSheet :=
  { identity := { classes := [{ name := "rogue", level := 1 }] } }

/-- A decision entry raising the rogue to level 2 with a subclass. -/
def rogueLevel2 : ClassLevelData :=
  { class_name := "rogue", level := 2, subclass := some "Thief" }

/-- A decision record whose skill slot `rogue_skill_1` commits the
lower-case value `stealth` (the very spelling `schema.py`'s doc comment
uses), against a class skill list that spells it `Stealth`. -/
def roundTripData : CharacterData :=
  { classes :=
      [ { class_name := "rogue", level := 1,
          feature_choices := [("rogue_skill_1", "stealth")] } ] }

end LivingScroll

namespace LivingScroll

/-! ### Dictionary lemmas -/

theorem dictGet_cons (k' : String) (v' : Int) (rest : List (String × Int)) (k : String) (d : Int) :
    dictGet ((k', v') :: rest) k d = if k' = k then v' else dictGet rest k d := by
  by_cases h : k' = k <;> simp [dictGet, List.find?_cons, h]

theorem dictGet_dictSet_same (m : List (String × Int)) (k : String) (v d : Int) :
    dictGet (dictSet m k v) k d = v := by
  induction m with
  | nil => simp [dictSet, dictGet_cons, dictGet]
  | cons p rest ih =>
    obtain ⟨k', v'⟩ := p
    by_cases h : k' = k
    · subst h; simp [dictSet, dictGet_cons]
    · simp [dictSet, h, dictGet_cons, ih]

theorem dictGet_dictSet_ne (m : List (String × Int)) (k s : String) (v d : Int)
    (h : s ≠ k) : dictGet (dictSet m k v) s d = dictGet m s d := by
  have h' : k ≠ s := Ne.symm h
  induction m with
  | nil => simp [dictSet, dictGet_cons, dictGet, h']
  | cons p rest ih =>
    obtain ⟨k', v'⟩ := p
    by_cases hk : k' = k
    · subst hk
      simp [dictSet, dictGet_cons, h']
    · simp [dictSet, hk, dictGet_cons, ih]

theorem dictGet_foldl_set1 (l : List String) (m : List (String × Int)) (s : String) :
    dictGet (l.foldl (fun m skill => dictSet m skill 1) m) s 0
      = if s ∈ l then 1 else dictGet m s 0 := by
  induction l generalizing m with
  | nil => simp
  | cons a rest ih =>
    by_cases hmem : s ∈ rest
    · simp [List.foldl_cons, ih, hmem]
    · by_cases hs : s = a
      · subst hs
        simp [List.foldl_cons, ih, hmem, dictGet_dictSet_same]
      · simp [List.foldl_cons, ih, hmem, hs, dictGet_dictSet_ne _ _ _ _ _ hs]

/-! ### Tool-append lemmas -/

theorem mem_addTool_of_mem (ts : List String) (t x : String) (h : x ∈ ts) :
    x ∈ addTool ts t := by
  unfold addTool
  split <;> simp [h]

theorem mem_addTool_self (ts : List String) (t : String) : t ∈ addTool ts t := by
  unfold addTool
  split <;> simp_all

theorem mem_foldl_addTool_of_mem (l : List String) (ts : List String) (x : String)
    (h : x ∈ ts) : x ∈ l.foldl addTool ts := by
  induction l generalizing ts with
  | nil => simpa using h
  | cons a rest ih => exact ih _ (mem_addTool_of_mem _ _ _ h)

theorem mem_foldl_addTool : ∀ (l : List String) (ts : List String) (t : String),
    t ∈ l → t ∈ l.foldl addTool ts
  | [], _, _, h => by cases h
  | a :: rest, ts, t, h => by
    simp only [List.foldl_cons]
    rcases List.mem_cons.mp h with h1 | h2
    · subst h1
      exact mem_foldl_addTool_of_mem rest (addTool ts t) t (mem_addTool_self ts t)
    · exact mem_foldl_addTool rest (addTool ts a) t h2

theorem nodup_addTool (ts : List String) (t : String) (h : ts.Nodup) :
    (addTool ts t).Nodup := by
  unfold addTool
  split
  · exact h
  · next hmem =>
    rw [List.nodup_append]
    refine ⟨h, List.nodup_singleton t, ?_⟩
    intro x hx hxt
    simp only [List.mem_singleton] at hxt
    subst hxt
    exact hmem hx

theorem nodup_foldl_addTool (l : List String) (ts : List String) (h : ts.Nodup) :
    (l.foldl addTool ts).Nodup := by
  induction l generalizing ts with
  | nil => simpa using h
  | cons a rest ih => exact ih _ (nodup_addTool _ _ h)

theorem foldl_addTool_decomp (l : List String) (ts : List String) :
    ∃ extra, l.foldl addTool ts = ts ++ extra ∧ ∀ t ∈ extra, t ∉ ts ∧ t ∈ l := by
  induction l generalizing ts with
  | nil => exact ⟨[], by simp⟩
  | cons a rest ih =>
    by_cases hmem : a ∈ ts
    · obtain ⟨extra, heq, hprop⟩ := ih ts
      refine ⟨extra, ?_, ?_⟩
      · simpa [addTool, hmem] using heq
      · exact fun t ht => ⟨(hprop t ht).1, List.mem_cons_of_mem _ (hprop t ht).2⟩
    · obtain ⟨extra, heq, hprop⟩ := ih (ts ++ [a])
      refine ⟨a :: extra, ?_, ?_⟩
      · simpa [addTool, hmem] using heq
      · intro t ht
        rcases List.mem_cons.mp ht with h1 | h2
        · subst h1; exact ⟨hmem, List.mem_cons_self _ _⟩
        · have := hprop t h2
          simp only [List.mem_append, List.mem_singleton] at this
          exact ⟨fun hc => this.1 (Or.inl hc), List.mem_cons_of_mem _ this.2⟩

end LivingScroll

namespace LivingScroll

/-! ### Ability-dict lemmas -/

theorem abilitiesGet?_cons (a : String) (b : AbilityBlock)
    (rest : List (String × AbilityBlock)) (k : String) :
    abilitiesGet? ((a, b) :: rest) k
      = if a = k then some b else abilitiesGet? rest k := by
  by_cases h : a = k <;> simp [abilitiesGet?, List.find?_cons, h]

theorem abilitiesModify_cons (a : String) (b : AbilityBlock)
    (rest : List (String × AbilityBlock)) (k : String) (f : AbilityBlock → AbilityBlock) :
    abilitiesModify ((a, b) :: rest) k f
      = (if a = k then (a, f b) else (a, b)) :: abilitiesModify rest k f := by
  by_cases h : a = k <;> simp [abilitiesModify, h]

theorem abilitiesGet?_modify (m : List (String × AbilityBlock)) (k k' : String)
    (f : AbilityBlock → AbilityBlock) :
    abilitiesGet? (abilitiesModify m k f) k'
      = if k' = k then (abilitiesGet? m k').map f else abilitiesGet? m k' := by
  induction m with
  | nil => simp [abilitiesGet?, abilitiesModify]
  | cons p rest ih =>
    obtain ⟨a, b⟩ := p
    rw [abilitiesModify_cons]
    by_cases hak : a = k
    · subst hak
      rw [if_pos rfl]
      by_cases hk' : a = k'
      · subst hk'
        simp [abilitiesGet?_cons]
      · rw [abilitiesGet?_cons, abilitiesGet?_cons, if_neg hk', if_neg hk', ih]
    · rw [if_neg hak]
      by_cases hk' : a = k'
      · subst hk'
        have hne : ¬(a = k) := hak
        rw [abilitiesGet?_cons, abilitiesGet?_cons, if_pos rfl, if_pos rfl,
          if_neg (fun hc => hne hc)]
      · rw [abilitiesGet?_cons, abilitiesGet?_cons, if_neg hk', if_neg hk', ih]

theorem abilitiesGet?_foldl_setSave (saves : List String)
    (m : List (String × AbilityBlock)) (k : String) :
    abilitiesGet? (saves.foldl (fun ab save => abilitiesModify ab save setSaveProf) m) k
      = if k ∈ saves then (abilitiesGet? m k).map setSaveProf else abilitiesGet? m k := by
  induction saves generalizing m with
  | nil => simp
  | cons s rest ih =>
    simp only [List.foldl_cons, ih, abilitiesGet?_modify]
    by_cases hmem : k ∈ rest
    · by_cases hk : k = s
      · subst hk
        simp [hmem]
        cases abilitiesGet? m k <;> simp [setSaveProf]
      · simp [hmem, hk]
    · by_cases hk : k = s
      · subst hk
        simp [hmem]
      · simp [hmem, hk]

/-! ### Feature-choice dispatch lemmas -/

theorem applyFeatureChoice_frame (s : CharacterSheet) (kv : String × String) :
    (applyFeatureChoice s kv).identity = s.identity
    ∧ (applyFeatureChoice s kv).abilities = s.abilities
    ∧ (applyFeatureChoice s kv).proficiencies.armor = s.proficiencies.armor
    ∧ (applyFeatureChoice s kv).proficiencies.weapons = s.proficiencies.weapons
    ∧ (applyFeatureChoice s kv).proficiencies.tools = s.proficiencies.tools
    ∧ (applyFeatureChoice s kv).equipment = s.equipment := by
  by_cases h1 : (strContainsSub kv.1 "_skill_" && kv.2 != "") = true
  · by_cases h2 : strContainsSub kv.1 "_expertise" = true
    · simp [applyFeatureChoice, h1, h2]
    · by_cases h3 : dictGet s.proficiencies.skills kv.2 0 < 2
      · simp [applyFeatureChoice, h1, h2, h3]
      · simp [applyFeatureChoice, h1, h2, h3]
  · simp [applyFeatureChoice, h1]

theorem foldFC_frame (l : List (String × String)) (s : CharacterSheet) :
    (l.foldl applyFeatureChoice s).identity = s.identity
    ∧ (l.foldl applyFeatureChoice s).abilities = s.abilities
    ∧ (l.foldl applyFeatureChoice s).proficiencies.armor = s.proficiencies.armor
    ∧ (l.foldl applyFeatureChoice s).proficiencies.weapons = s.proficiencies.weapons
    ∧ (l.foldl applyFeatureChoice s).proficiencies.tools = s.proficiencies.tools
    ∧ (l.foldl applyFeatureChoice s).equipment = s.equipment := by
  induction l generalizing s with
  | nil => simp
  | cons kv rest ih =>
    simp only [List.foldl_cons]
    obtain ⟨h1, h2, h3, h4, h5, h6⟩ := ih (applyFeatureChoice s kv)
    obtain ⟨g1, g2, g3, g4, g5, g6⟩ := applyFeatureChoice_frame s kv
    exact ⟨h1.trans g1, h2.trans g2, h3.trans g3, h4.trans g4, h5.trans g5, h6.trans g6⟩

theorem applyFeatureChoice_expert_preserved (s : CharacterSheet) (kv : String × String)
    (sk : String) (h : dictGet s.proficiencies.skills sk 0 = 2) :
    dictGet (applyFeatureChoice s kv).proficiencies.skills sk 0 = 2 := by
  by_cases h1 : (strContainsSub kv.1 "_skill_" && kv.2 != "") = true
  · by_cases h2 : strContainsSub kv.1 "_expertise" = true
    · by_cases hsel : kv.2 = sk
      · subst hsel
        simp [applyFeatureChoice, h1, h2, dictGet_dictSet_same]
      · simpa [applyFeatureChoice, h1, h2,
          dictGet_dictSet_ne _ _ _ _ _ (Ne.symm hsel)] using h
    · by_cases h3 : dictGet s.proficiencies.skills kv.2 0 < 2
      · by_cases hsel : kv.2 = sk
        · subst hsel
          omega
        · simpa [applyFeatureChoice, h1, h2, h3,
            dictGet_dictSet_ne _ _ _ _ _ (Ne.symm hsel)] using h
      · simpa [applyFeatureChoice, h1, h2, h3] using h
  · simpa [applyFeatureChoice, h1] using h

theorem foldFC_expert_preserved (l : List (String × String)) (s : CharacterSheet)
    (sk : String) (h : dictGet s.proficiencies.skills sk 0 = 2) :
    dictGet (l.foldl applyFeatureChoice s).proficiencies.skills sk 0 = 2 := by
  induction l generalizing s with
  | nil => simpa using h
  | cons kv rest ih =>
    simp only [List.foldl_cons]
    exact ih _ (applyFeatureChoice_expert_preserved s kv sk h)

end LivingScroll

namespace LivingScroll

/-! ### Branch equations for the class-consolidation loop body -/

theorem applyClassEntry_eq_found (c : Compendium) (sheet : CharacterSheet)
    (cls : ClassLevelData) (existing : ClassProgression)
    (hfind : sheet.identity.classes.find? (fun p => p.name == cls.class_name)
      = some existing) :
    applyClassEntry c sheet cls
      = cls.feature_choices.foldl applyFeatureChoice
          { sheet with identity := { sheet.identity with
              classes := setFirstByName sheet.identity.classes cls.class_name
                (consolidateEntry existing cls) } } := by
  unfold applyClassEntry
  rw [hfind]

theorem applyClassEntry_eq_new_norec (c : Compendium) (sheet : CharacterSheet)
    (cls : ClassLevelData)
    (hfind : sheet.identity.classes.find? (fun p => p.name == cls.class_name) = none)
    (hrec : c.class_record (pyLower cls.class_name) = none) :
    applyClassEntry c sheet cls
      = cls.feature_choices.foldl applyFeatureChoice
          { sheet with identity := { sheet.identity with
              classes := sheet.identity.classes ++ [newEntry cls] } } := by
  unfold applyClassEntry
  rw [hfind]
  simp only [hrec]

theorem applyClassEntry_eq_new_primary (c : Compendium) (sheet : CharacterSheet)
    (cls : ClassLevelData) (rec : ClassRecord)
    (hempty : sheet.identity.classes = [])
    (hrec : c.class_record (pyLower cls.class_name) = some rec) :
    applyClassEntry c sheet cls
      = cls.feature_choices.foldl applyFeatureChoice
          { sheet with
              identity := { sheet.identity with classes := [newEntry cls] },
              proficiencies := { sheet.proficiencies with
                armor := sheet.proficiencies.armor ++ rec.armor,
                weapons := sheet.proficiencies.weapons ++ rec.weapons },
              abilities :=
                (rec.saves.foldl (fun ab save => abilitiesModify ab save setSaveProf)
                  sheet.abilities) } := by
  unfold applyClassEntry
  rw [hempty]
  simp only [List.find?_nil, hrec, List.nil_append, List.head?_cons, beq_self_eq_true,
    if_pos]

theorem applyClassEntry_eq_new_nonprimary (c : Compendium) (sheet : CharacterSheet)
    (cls : ClassLevelData) (rec : ClassRecord) (p : ClassProgression)
    (t : List ClassProgression)
    (hcls : sheet.identity.classes = p :: t)
    (hfind : sheet.identity.classes.find? (fun q => q.name == cls.class_name) = none)
    (hrec : c.class_record (pyLower cls.class_name) = some rec) :
    applyClassEntry c sheet cls
      = cls.feature_choices.foldl applyFeatureChoice
          (match rec.multiclassing with
           | none =>
             { sheet with identity := { sheet.identity with
                 classes := sheet.identity.classes ++ [newEntry cls] } }
           | some mc_profs =>
             { sheet with
                 identity := { sheet.identity with
                   classes := sheet.identity.classes ++ [newEntry cls] },
                 proficiencies := { sheet.proficiencies with
                   armor := sheet.proficiencies.armor ++ mc_profs.armor,
                   weapons := sheet.proficiencies.weapons ++ mc_profs.weapons } }) := by
  have hpname : (p.name == cls.class_name) = false := by
    have := List.find?_eq_none.mp hfind p (by rw [hcls]; exact List.mem_cons_self _ _)
    simpa using this
  have hne : p ≠ newEntry cls := by
    intro hcontra
    have hnm : p.name = cls.class_name := by rw [hcontra]; rfl
    rw [hnm] at hpname
    simp at hpname
  have hpe : (((p :: t) ++ [newEntry cls]).head? == some (newEntry cls)) = false := by
    simp only [List.cons_append, List.head?_cons]
    exact beq_eq_false_iff_ne.mpr (by simp [hne])
  unfold applyClassEntry
  rw [hfind]
  simp only [hrec, hcls, hpe, Bool.false_eq_true, if_false]

end LivingScroll

namespace LivingScroll

/-! ### Stage frame lemmas -/

theorem applyBackground_eq_resolved (c : Compendium) (st : HState)
    (background : BackgroundRecord)
    (hne : st.data.identity.background ≠ "")
    (h : c.background_record st.data.identity.background = some background) :
    applyBackground c st
      = { st with sheet := { st.sheet with proficiencies :=
          { st.sheet.proficiencies with
            skills := background.skills.foldl (fun m skill => dictSet m skill 1)
              st.sheet.proficiencies.skills,
            tools := background.tools.foldl addTool
              st.sheet.proficiencies.tools } } } := by
  have hb : (st.data.identity.background == "") = false := by simp [hne]
  unfold applyBackground
  simp only [hb, Bool.false_eq_true, if_false, h]

theorem applyBackground_data (c : Compendium) (st : HState) :
    (applyBackground c st).data = st.data := by
  unfold applyBackground
  by_cases hb : (st.data.identity.background == "") = true
  · simp [hb]
  · simp only [hb, Bool.false_eq_true, if_false]
    cases c.background_record st.data.identity.background <;> simp

theorem applyBackground_equipment (c : Compendium) (st : HState) :
    (applyBackground c st).sheet.equipment = st.sheet.equipment := by
  unfold applyBackground
  by_cases hb : (st.data.identity.background == "") = true
  · simp [hb]
  · simp only [hb, Bool.false_eq_true, if_false]
    cases c.background_record st.data.identity.background <;> simp

theorem applyClassEntry_equipment (c : Compendium) (sheet : CharacterSheet)
    (cls : ClassLevelData) :
    (applyClassEntry c sheet cls).equipment = sheet.equipment := by
  rcases hfind : sheet.identity.classes.find? (fun p => p.name == cls.class_name)
    with _ | existing
  · rcases hrec : c.class_record (pyLower cls.class_name) with _ | rec
    · rw [applyClassEntry_eq_new_norec c sheet cls hfind hrec]
      exact (foldFC_frame _ _).2.2.2.2.2
    · rcases hcls : sheet.identity.classes with _ | ⟨p, t⟩
      · rw [applyClassEntry_eq_new_primary c sheet cls rec hcls hrec]
        exact (foldFC_frame _ _).2.2.2.2.2
      · rw [applyClassEntry_eq_new_nonprimary c sheet cls rec p t hcls hfind hrec]
        rcases rec.multiclassing with _ | mc
        · exact (foldFC_frame _ _).2.2.2.2.2
        · exact (foldFC_frame _ _).2.2.2.2.2
  · rw [applyClassEntry_eq_found c sheet cls existing hfind]
    exact (foldFC_frame _ _).2.2.2.2.2

theorem foldl_applyClassEntry_equipment (c : Compendium) (l : List ClassLevelData)
    (sheet : CharacterSheet) :
    (l.foldl (applyClassEntry c) sheet).equipment = sheet.equipment := by
  induction l generalizing sheet with
  | nil => rfl
  | cons cls rest ih =>
    simp only [List.foldl_cons]
    exact (ih _).trans (applyClassEntry_equipment c sheet cls)

/-! ### Claim theorems -/

/-- Claim C1: hydration is deterministic — two calls of `hydrate` on the
same decision record and ruleset produce structurally equal sheets (the
same identity, ability scores, proficiency sets and consolidated class
list).  The embedding is a pure function of its two arguments: the source
reads only dicts and lists (deterministic iteration order) and no clock,
randomness or ambient state, so repeated calls coincide definitionally. -/
theorem hydrate_deterministic (c : Compendium) (d : CharacterData) :
    hydrate c d = hydrate c d
    ∧ (hydrate c d).identity = (hydrate c d).identity
    ∧ (hydrate c d).abilities = (hydrate c d).abilities
    ∧ (hydrate c d).proficiencies = (hydrate c d).proficiencies
    ∧ (hydrate c d).identity.classes = (hydrate c d).identity.classes :=
  ⟨rfl, rfl, rfl, rfl, rfl⟩

/-- Claim C10: hydration does not mutate its input.  In the state-passing
embedding (which threads the decision record through every statement of
`hydrate` and its helpers — none of which assigns into the record), the
data component of the final state is the untouched input, and the sheet
produced is a fresh construction independent of any prior sheet. -/
theorem hydrate_no_mutation (c : Compendium) (d : CharacterData) (s : CharacterSheet) :
    (hydrateS c { data := d, sheet := s }).data = d
    ∧ (hydrateS c { data := d, sheet := s }).sheet = hydrate c d := by
  constructor
  · unfold hydrateS
    simp only [applyClasses]
    rw [applyBackground_data]
    rfl
  · rfl

/-- Claim C7 (refuted, code bug): the spec says the decision record's
equipment list is copied through onto the sheet, but step 7 of `hydrate`
("Apply Equipment") is an unimplemented TODO — the sheet's equipment list
is never written and stays empty, even when the decision record holds
items. -/
theorem hydrate_equipment_never_copied :
    (∀ (c : Compendium) (d : CharacterData), (hydrate c d).equipment = [])
    ∧ (hydrate witnessCompendium criminalData).equipment = []
    ∧ criminalData.equipment = [{ raw := "longsword" }] := by
  have hall : ∀ (c : Compendium) (d : CharacterData), (hydrate c d).equipment = [] := by
    intro c d
    show (hydrateS c { data := d, sheet := {} }).sheet.equipment = []
    unfold hydrateS
    have h1 : ∀ st : HState, (applyClasses c st).sheet.equipment = st.sheet.equipment :=
      fun st => foldl_applyClassEntry_equipment c st.data.classes st.sheet
    rw [h1, applyBackground_equipment]
    rfl
  exact ⟨hall, hall _ _, rfl⟩

end LivingScroll

namespace LivingScroll

theorem applyClassEntry_expert_preserved (c : Compendium) (sheet : CharacterSheet)
    (cls : ClassLevelData) (sk : String)
    (h : dictGet sheet.proficiencies.skills sk 0 = 2) :
    dictGet (applyClassEntry c sheet cls).proficiencies.skills sk 0 = 2 := by
  rcases hfind : sheet.identity.classes.find? (fun p => p.name == cls.class_name)
    with _ | existing
  · rcases hrec : c.class_record (pyLower cls.class_name) with _ | rec
    · rw [applyClassEntry_eq_new_norec c sheet cls hfind hrec]
      exact foldFC_expert_preserved _ _ _ h
    · rcases hcls : sheet.identity.classes with _ | ⟨p, t⟩
      · rw [applyClassEntry_eq_new_primary c sheet cls rec hcls hrec]
        exact foldFC_expert_preserved _ _ _ h
      · rw [applyClassEntry_eq_new_nonprimary c sheet cls rec p t hcls hfind hrec]
        rcases rec.multiclassing with _ | mc
        · exact foldFC_expert_preserved _ _ _ h
        · exact foldFC_expert_preserved _ _ _ h
  · rw [applyClassEntry_eq_found c sheet cls existing hfind]
    exact foldFC_expert_preserved _ _ _ h

/-- Claim C4: feature-choice skill dispatch and expertise monotonicity.  A
`_skill_` key with a non-empty value sets the selected skill to 2 when the
key also contains `_expertise` (unconditionally), and otherwise to 1 only
when the current level is below 2; consequently a skill at expertise
(level 2) survives any later feature-choice application in the same
hydration pass, including every later class-entry step. -/
theorem featureChoice_dispatch_and_monotone (sheet : CharacterSheet)
    (featKey selection sk : String) (c : Compendium) (cls : ClassLevelData) :
    (strContainsSub featKey "_skill_" = true → strContainsSub featKey "_expertise" = true →
      selection ≠ "" →
      dictGet (applyFeatureChoice sheet (featKey, selection)).proficiencies.skills
        selection 0 = 2)
    ∧ (strContainsSub featKey "_skill_" = true →
      strContainsSub featKey "_expertise" = false → selection ≠ "" →
      (applyFeatureChoice sheet (featKey, selection)).proficiencies.skills
        = if dictGet sheet.proficiencies.skills selection 0 < 2
          then dictSet sheet.proficiencies.skills selection 1
          else sheet.proficiencies.skills)
    ∧ (dictGet sheet.proficiencies.skills sk 0 = 2 →
      dictGet (applyFeatureChoice sheet (featKey, selection)).proficiencies.skills sk 0 = 2)
    ∧ (dictGet sheet.proficiencies.skills sk 0 = 2 →
      dictGet (applyClassEntry c sheet cls).proficiencies.skills sk 0 = 2) := by
  refine ⟨?_, ?_, ?_, ?_⟩
  · intro h1 h2 hsel
    have hcond : (strContainsSub featKey "_skill_" && selection != "") = true := by
      simp [h1, hsel]
    simp [applyFeatureChoice, hcond, h2, dictGet_dictSet_same]
  · intro h1 h2 hsel
    have hcond : (strContainsSub featKey "_skill_" && selection != "") = true := by
      simp [h1, hsel]
    by_cases h3 : dictGet sheet.proficiencies.skills selection 0 < 2
    · simp [applyFeatureChoice, hcond, h2, h3]
    · simp [applyFeatureChoice, hcond, h2, h3]
  · exact applyFeatureChoice_expert_preserved sheet (featKey, selection) sk
  · exact applyClassEntry_expert_preserved c sheet cls sk

/-- Witness for C4 at concrete inputs: the key
`rogue_skill_1_expertise` sets Arcana to 2, the key `rogue_skill_1` sets
Arcana to 1 on a sheet without expertise in it, and Stealth at 2 on
`expertSheet` survives both a feature choice and a class-entry step. -/
theorem featureChoice_dispatch_and_monotone_witness :
    dictGet (applyFeatureChoice expertSheet
        ("rogue_skill_1_expertise", "Arcana")).proficiencies.skills "Arcana" 0 = 2
    ∧ ((applyFeatureChoice expertSheet ("rogue_skill_1", "Arcana")).proficiencies.skills
        = if dictGet expertSheet.proficiencies.skills "Arcana" 0 < 2
          then dictSet expertSheet.proficiencies.skills "Arcana" 1
          else expertSheet.proficiencies.skills)
    ∧ dictGet (applyFeatureChoice expertSheet
        ("rogue_skill_1", "Stealth")).proficiencies.skills "Stealth" 0 = 2
    ∧ dictGet (applyClassEntry witnessCompendium expertSheet
        rogueEntry).proficiencies.skills "Stealth" 0 = 2 :=
  ⟨(featureChoice_dispatch_and_monotone expertSheet "rogue_skill_1_expertise" "Arcana"
      "Stealth" witnessCompendium rogueEntry).1 (by decide) (by decide) (by decide),
   (featureChoice_dispatch_and_monotone expertSheet "rogue_skill_1" "Arcana"
      "Stealth" witnessCompendium rogueEntry).2.1 (by decide) (by decide) (by decide),
   (featureChoice_dispatch_and_monotone expertSheet "rogue_skill_1" "Stealth"
      "Stealth" witnessCompendium rogueEntry).2.2.1 (by decide),
   (featureChoice_dispatch_and_monotone expertSheet "rogue_skill_1" "Stealth"
      "Stealth" witnessCompendium rogueEntry).2.2.2 (by decide)⟩

end LivingScroll

namespace LivingScroll

/-- Claim C5: a falsy or unresolvable background key makes the background
stage a silent no-op — the state (sheet included) is returned unchanged, so
no skills or tools attributable to the background are added, and the
embedding is total (no exception path exists in the source branch). -/
theorem background_lookup_miss_noop (c : Compendium) (st : HState)
    (h : st.data.identity.background = ""
      ∨ c.background_record st.data.identity.background = none) :
    applyBackground c st = st := by
  unfold applyBackground
  rcases h with h | h
  · simp [h]
  · by_cases hb : (st.data.identity.background == "") = true
    · simp [hb]
    · simp only [hb, Bool.false_eq_true, if_false, h]

/-- Witness for C5: the key `nonexistent_key` resolves to nothing in
`witnessCompendium`, and an empty background key is skipped outright; both
leave the state untouched. -/
theorem background_lookup_miss_noop_witness :
    applyBackground witnessCompendium { data := unknownBgData, sheet := {} }
      = { data := unknownBgData, sheet := {} }
    ∧ applyBackground witnessCompendium { data := {}, sheet := {} }
      = { data := {}, sheet := {} } :=
  ⟨background_lookup_miss_noop witnessCompendium _ (Or.inr (by decide)),
   background_lookup_miss_noop witnessCompendium _ (Or.inl (by decide))⟩

/-- Claim C6: when the background key resolves, every skill listed in the
record ends at proficiency level 1, every listed tool is present
afterwards, tools are appended only when not already present (no
duplicates are introduced and the old list is kept as a prefix), and the
sheet's equipment is never extended by the background stage. -/
theorem background_resolved_effect (c : Compendium) (st : HState)
    (background : BackgroundRecord)
    (hne : st.data.identity.background ≠ "")
    (h : c.background_record st.data.identity.background = some background) :
    (∀ s ∈ background.skills,
      dictGet (applyBackground c st).sheet.proficiencies.skills s 0 = 1)
    ∧ (∀ t ∈ background.tools, t ∈ (applyBackground c st).sheet.proficiencies.tools)
    ∧ (st.sheet.proficiencies.tools.Nodup →
        (applyBackground c st).sheet.proficiencies.tools.Nodup)
    ∧ (∃ extra, (applyBackground c st).sheet.proficiencies.tools
        = st.sheet.proficiencies.tools ++ extra
        ∧ ∀ t ∈ extra, t ∉ st.sheet.proficiencies.tools ∧ t ∈ background.tools)
    ∧ (applyBackground c st).sheet.equipment = st.sheet.equipment := by
  rw [applyBackground_eq_resolved c st background hne h]
  refine ⟨?_, ?_, ?_, ?_, rfl⟩
  · intro s hs
    show dictGet (background.skills.foldl (fun m skill => dictSet m skill 1)
      st.sheet.proficiencies.skills) s 0 = 1
    rw [dictGet_foldl_set1]
    simp [hs]
  · intro t ht
    exact mem_foldl_addTool _ _ _ ht
  · intro hnd
    exact nodup_foldl_addTool _ _ hnd
  · exact foldl_addTool_decomp _ _

/-- Witness for C6: resolving `criminal` against `witnessCompendium` on a
fresh sheet marks Stealth proficient, adds the Gaming Set tool, keeps the
tool list duplicate-free, decomposes the tool list as old list plus fresh
additions, and leaves equipment untouched. -/
theorem background_resolved_effect_witness :
    dictGet (applyBackground witnessCompendium
        { data := criminalData, sheet := {} }).sheet.proficiencies.skills "Stealth" 0 = 1
    ∧ "Gaming Set" ∈ (applyBackground witnessCompendium
        { data := criminalData, sheet := {} }).sheet.proficiencies.tools
    ∧ (applyBackground witnessCompendium
        { data := criminalData, sheet := {} }).sheet.proficiencies.tools.Nodup
    ∧ (∃ extra, (applyBackground witnessCompendium
          { data := criminalData, sheet := {} }).sheet.proficiencies.tools
        = ({} : CharacterSheet).proficiencies.tools ++ extra
        ∧ ∀ t ∈ extra, t ∉ ({} : CharacterSheet).proficiencies.tools
            ∧ t ∈ criminalRecord.tools)
    ∧ (applyBackground witnessCompendium
        { data := criminalData, sheet := {} }).sheet.equipment
      = ({} : CharacterSheet).equipment := by
  have h := background_resolved_effect witnessCompendium
    { data := criminalData, sheet := {} } criminalRecord (by decide) (by decide)
  exact ⟨h.1 "Stealth" (by decide), h.2.1 "Gaming Set" (by decide),
    h.2.2.1 (by decide), h.2.2.2.1, h.2.2.2.2⟩

end LivingScroll

namespace LivingScroll

/-- Claim C2: class progression consolidation.  Walking a decision entry:
a case-sensitive name match against the consolidated list updates that
entry in place to the maximum of the two levels, overwriting the subclass
only when the decision entry carries a truthy one; a miss appends a fresh
consolidated entry at the end.  On the decision sequence
`[{rogue,1},{rogue,2},{wizard,1},{rogue,3}]` hydration yields
`[{rogue,3},{wizard,1}]` in that order. -/
theorem class_consolidation (c : Compendium) (sheet : CharacterSheet)
    (cls : ClassLevelData) :
    (∀ existing,
      sheet.identity.classes.find? (fun p => p.name == cls.class_name) = some existing →
      (applyClassEntry c sheet cls).identity.classes
        = setFirstByName sheet.identity.classes cls.class_name
            { name := existing.name,
              level := max existing.level cls.level,
              subclass := if pyTruthyOpt cls.subclass then cls.subclass
                          else existing.subclass })
    ∧ (sheet.identity.classes.find? (fun p => p.name == cls.class_name) = none →
      (applyClassEntry c sheet cls).identity.classes
        = sheet.identity.classes ++ [newEntry cls])
    ∧ (hydrate {} consolidationData).identity.classes
        = [{ name := "rogue", level := 3, subclass := none },
           { name := "wizard", level := 1, subclass := none }] := by
  refine ⟨?_, ?_, by rfl⟩
  · intro existing hfind
    rw [applyClassEntry_eq_found c sheet cls existing hfind, (foldFC_frame _ _).1]
    rfl
  · intro hfind
    rcases hrec : c.class_record (pyLower cls.class_name) with _ | rec
    · rw [applyClassEntry_eq_new_norec c sheet cls hfind hrec, (foldFC_frame _ _).1]
    · rcases hcls : sheet.identity.classes with _ | ⟨p, t⟩
      · rw [applyClassEntry_eq_new_primary c sheet cls rec hcls hrec,
          (foldFC_frame _ _).1]
        simp [hcls]
      · rw [applyClassEntry_eq_new_nonprimary c sheet cls rec p t hcls hfind hrec]
        rcases hmc : rec.multiclassing with _ | mc
        · simp only [hmc]
          rw [(foldFC_frame _ _).1]
          simp [hcls]
        · simp only [hmc]
          rw [(foldFC_frame _ _).1]
          simp [hcls]

/-- Witness for C2: raising an already-present rogue to level 2 updates the
existing consolidated entry in place (with subclass overwrite), and a rogue
entry on a fighter-first sheet is appended as a new consolidated entry. -/
theorem class_consolidation_witness :
    (applyClassEntry witnessCompendium rogueFirstSheet rogueLevel2).identity.classes
      = setFirstByName rogueFirstSheet.identity.classes "rogue"
          { name := "rogue", level := max 1 2,
            subclass := if pyTruthyOpt (some "Thief") then some "Thief" else none }
    ∧ (applyClassEntry witnessCompendium fighterFirstSheet rogueEntry).identity.classes
      = fighterFirstSheet.identity.classes ++ [newEntry rogueEntry] :=
  ⟨(class_consolidation witnessCompendium rogueFirstSheet rogueLevel2).1
      { name := "rogue", level := 1 } (by rfl),
   (class_consolidation witnessCompendium fighterFirstSheet rogueEntry).2.1 (by rfl)⟩

/-- Claim C3: primacy stability.  A class entry processed while the
consolidated list is non-empty (any later-introduced or repeated class)
never touches the ability blocks (so no save-proficiency flags are set)
and extends armor/weapons exactly by the multiclassing-table subset (empty
when the table, the record, or the first-occurrence condition is absent);
the class introduced on an empty consolidated list — the first class in
decision order, regardless of eventual levels — receives the record's full
armor and weapon lists and save-proficiency flags on its listed saves. -/
theorem primacy_stability (c : Compendium) (sheet : CharacterSheet)
    (cls : ClassLevelData) :
    (sheet.identity.classes ≠ [] →
      (applyClassEntry c sheet cls).abilities = sheet.abilities
      ∧ (applyClassEntry c sheet cls).proficiencies.armor
          = sheet.proficiencies.armor ++ (mcGrants c sheet cls).1
      ∧ (applyClassEntry c sheet cls).proficiencies.weapons
          = sheet.proficiencies.weapons ++ (mcGrants c sheet cls).2)
    ∧ (∀ rec, sheet.identity.classes = [] →
        c.class_record (pyLower cls.class_name) = some rec →
        (applyClassEntry c sheet cls).proficiencies.armor
            = sheet.proficiencies.armor ++ rec.armor
        ∧ (applyClassEntry c sheet cls).proficiencies.weapons
            = sheet.proficiencies.weapons ++ rec.weapons
        ∧ ∀ k, abilitiesGet? (applyClassEntry c sheet cls).abilities k
            = if k ∈ rec.saves
              then (abilitiesGet? sheet.abilities k).map setSaveProf
              else abilitiesGet? sheet.abilities k) := by
  constructor
  · intro hne
    rcases hcls : sheet.identity.classes with _ | ⟨p, t⟩
    · exact absurd hcls hne
    · rcases hfind : sheet.identity.classes.find? (fun q => q.name == cls.class_name)
        with _ | existing
      · rcases hrec : c.class_record (pyLower cls.class_name) with _ | rec
        · rw [applyClassEntry_eq_new_norec c sheet cls hfind hrec]
          refine ⟨(foldFC_frame _ _).2.1, ?_, ?_⟩
          · rw [(foldFC_frame _ _).2.2.1]
            simp [mcGrants, hfind, hrec]
          · rw [(foldFC_frame _ _).2.2.2.1]
            simp [mcGrants, hfind, hrec]
        · rw [applyClassEntry_eq_new_nonprimary c sheet cls rec p t hcls hfind hrec]
          rcases hmc : rec.multiclassing with _ | mc
          · refine ⟨(foldFC_frame _ _).2.1, ?_, ?_⟩
            · rw [(foldFC_frame _ _).2.2.1]
              simp [mcGrants, hfind, hrec, hmc]
            · rw [(foldFC_frame _ _).2.2.2.1]
              simp [mcGrants, hfind, hrec, hmc]
          · refine ⟨(foldFC_frame _ _).2.1, ?_, ?_⟩
            · rw [(foldFC_frame _ _).2.2.1]
              simp [mcGrants, hfind, hrec, hmc]
            · rw [(foldFC_frame _ _).2.2.2.1]
              simp [mcGrants, hfind, hrec, hmc]
      · rw [applyClassEntry_eq_found c sheet cls existing hfind]
        refine ⟨(foldFC_frame _ _).2.1, ?_, ?_⟩
        · rw [(foldFC_frame _ _).2.2.1]
          simp [mcGrants, hfind]
        · rw [(foldFC_frame _ _).2.2.2.1]
          simp [mcGrants, hfind]
  · intro rec hempty hrec
    have hfind : sheet.identity.classes.find? (fun q => q.name == cls.class_name)
        = none := by
      rw [hempty]; rfl
    rw [applyClassEntry_eq_new_primary c sheet cls rec hempty hrec]
    refine ⟨(foldFC_frame _ _).2.2.1, (foldFC_frame _ _).2.2.2.1, ?_⟩
    intro k
    rw [(foldFC_frame _ _).2.1]
    exact abilitiesGet?_foldl_setSave rec.saves sheet.abilities k

/-- Witness for C3: the rogue added to a fighter-first sheet gets only the
multiclassing armor subset and unchanged abilities; the rogue added to an
empty sheet gets the full armor and weapon lists and the DEX save flag. -/
theorem primacy_stability_witness :
    ((applyClassEntry witnessCompendium fighterFirstSheet rogueEntry).abilities
        = fighterFirstSheet.abilities
      ∧ (applyClassEntry witnessCompendium fighterFirstSheet
          rogueEntry).proficiencies.armor
        = fighterFirstSheet.proficiencies.armor
          ++ (mcGrants witnessCompendium fighterFirstSheet rogueEntry).1
      ∧ (applyClassEntry witnessCompendium fighterFirstSheet
          rogueEntry).proficiencies.weapons
        = fighterFirstSheet.proficiencies.weapons
          ++ (mcGrants witnessCompendium fighterFirstSheet rogueEntry).2)
    ∧ ((applyClassEntry witnessCompendium {} rogueEntry).proficiencies.armor
        = ({} : CharacterSheet).proficiencies.armor ++ rogueRecord.armor
      ∧ (applyClassEntry witnessCompendium {} rogueEntry).proficiencies.weapons
        = ({} : CharacterSheet).proficiencies.weapons ++ rogueRecord.weapons
      ∧ abilitiesGet? (applyClassEntry witnessCompendium {} rogueEntry).abilities "DEX"
        = if "DEX" ∈ rogueRecord.saves
          then (abilitiesGet? ({} : CharacterSheet).abilities "DEX").map setSaveProf
          else abilitiesGet? ({} : CharacterSheet).abilities "DEX") := by
  have h1 := (primacy_stability witnessCompendium fighterFirstSheet rogueEntry).1
    (by decide)
  have h2 := (primacy_stability witnessCompendium {} rogueEntry).2 rogueRecord
    (by rfl) (by decide)
  exact ⟨h1, h2.1, h2.2.1, h2.2.2 "DEX"⟩

end LivingScroll

namespace LivingScroll

/-! ### Lexicographic comparison lemmas -/

theorem charListLe_total : ∀ (a b : List Char), (charListLe a b || charListLe b a) = true
  | [], b => by simp [charListLe]
  | a :: as, [] => by simp [charListLe]
  | a :: as, b :: bs => by
    by_cases hab : a = b
    · subst hab
      simpa [charListLe] using charListLe_total as bs
    · have hba : b ≠ a := Ne.symm hab
      rcases lt_or_gt_of_ne hab with h | h
      · simp [charListLe, hab, hba, h]
      · simp [charListLe, hab, hba, h]

theorem charListLe_trans : ∀ (a b c : List Char),
    charListLe a b = true → charListLe b c = true → charListLe a c = true
  | [], _, _ => by simp [charListLe]
  | a :: as, [], _ => by simp [charListLe]
  | a :: as, b :: bs, [] => by simp [charListLe]
  | a :: as, b :: bs, c :: cs => by
    by_cases hab : a = b <;> by_cases hbc : b = c
    · subst hab; subst hbc
      simpa [charListLe] using charListLe_trans as bs cs
    · subst hab
      simp [charListLe, hbc]
    · subst hbc
      simp only [charListLe, if_neg hab, decide_eq_true_eq]
      exact fun h _ => h
    · by_cases hac : a = c
      · subst hac
        simp only [charListLe, if_neg hab, if_neg hbc, decide_eq_true_eq]
        intro h1 h2
        exact absurd (lt_trans h1 h2) (lt_irrefl a)
      · simp only [charListLe, if_neg hab, if_neg hbc, if_neg hac, decide_eq_true_eq]
        intro h1 h2
        exact lt_trans h1 h2

theorem pyStrLe_choice_trans (a b c : FeatureOptionChoice)
    (h1 : pyStrLe a.label b.label = true) (h2 : pyStrLe b.label c.label = true) :
    pyStrLe a.label c.label = true :=
  charListLe_trans _ _ _ h1 h2

theorem pyStrLe_choice_total (a b : FeatureOptionChoice) :
    (pyStrLe a.label b.label || pyStrLe b.label a.label) = true :=
  charListLe_total _ _

/-- Class-dropdown re-admission: when the stored value occurs
(case-sensitively) in the class skill list, the candidate list contains it
— even when availability filtered it out because the hydrated sheet
already marks it proficient (exactly the case
`current_val ∉ available_profs`, in which the source re-admits it). -/
theorem buildSkillDropdown_readmit (available_all : List FeatureOptionChoice)
    (skill_list : List String) (current_val : String)
    (h1 : current_val ∈ skill_list) (h2 : current_val ≠ "") :
    ∃ opt ∈ buildSkillDropdownChoices available_all skill_list current_val,
      opt.value = current_val := by
  simp only [buildSkillDropdownChoices, List.mem_mergeSort]
  by_cases hav : current_val ∈ available_all.map (fun opt => opt.value)
  · obtain ⟨opt, hopt, hval⟩ := List.mem_map.mp hav
    refine ⟨opt, ?_, hval⟩
    have hcond : ((available_all.map (fun opt => opt.value)).contains current_val) = true := by
      simpa [List.contains, List.elem_eq_mem] using hav
    simp only [hcond, Bool.not_true, Bool.and_false, Bool.false_eq_true, if_false,
      List.mem_filter]
    refine ⟨hopt, ?_⟩
    have : pyLower opt.value ∈ skill_list.map pyLower := by
      rw [hval]
      exact List.mem_map_of_mem pyLower h1
    simpa [List.contains, List.elem_eq_mem] using this
  · have hcond : ((available_all.map (fun opt => opt.value)).contains current_val) = false := by
      simpa [List.contains, List.elem_eq_mem] using hav
    have hsl : (skill_list.contains current_val) = true := by
      simpa [List.contains, List.elem_eq_mem] using h1
    have hne : (current_val != "") = true := by simpa using h2
    refine ⟨{ label := current_val, value := current_val, enabled := true }, ?_, rfl⟩
    simp only [hcond, hne, Bool.not_false, Bool.and_true, if_pos, hsl, if_true,
      List.mem_filter, List.mem_append]
    refine ⟨Or.inr (by simp), ?_⟩
    have : pyLower current_val ∈ skill_list.map pyLower :=
      List.mem_map_of_mem pyLower h1
    simpa [List.contains, List.elem_eq_mem] using this

unseal List.merge List.mergeSort in
/-- Claim C9 counterexample: the class-skill dropdown sorts with
`key=lambda x: x.label`, a case-sensitive comparison, so the labels
`arcana` and `Stealth` come out as `[Stealth, arcana]` — not the
case-insensitive order (`arcana` before `Stealth`) the claim states. -/
theorem candidate_ordering_counterexample :
    buildSkillDropdownChoices [arcanaChoice, stealthChoice] ["arcana", "Stealth"] ""
      = [stealthChoice, arcanaChoice]
    ∧ ¬ sortedByLabelCI
        (buildSkillDropdownChoices [arcanaChoice, stealthChoice]
          ["arcana", "Stealth"] "") := by
  have heq : buildSkillDropdownChoices [arcanaChoice, stealthChoice]
      ["arcana", "Stealth"] "" = [stealthChoice, arcanaChoice] := by rfl
  refine ⟨heq, ?_⟩
  rw [heq]
  unfold sortedByLabelCI
  decide

/-- Claim C9 amended: the class-skill dropdown candidate list is sorted by
display label under the case-sensitive code-point order (so upper-case
labels sort before lower-case ones); feat-derived candidate lists are not
sorted at all — they keep availability order, as the unsorted concrete pair
shows. -/
theorem candidate_ordering_amended (available_all : List FeatureOptionChoice)
    (skill_list : List String) (current_val : String) :
    (buildSkillDropdownChoices available_all skill_list current_val).Pairwise
      (fun a b => pyStrLe a.label b.label = true)
    ∧ buildFeatSkillChoices [stealthChoice, arcanaChoice] ["any"] ""
        = [stealthChoice, arcanaChoice] := by
  constructor
  · simp only [buildSkillDropdownChoices]
    exact List.sorted_mergeSort
      (fun a b c h1 h2 => pyStrLe_choice_trans a b c h1 h2)
      (fun a b => pyStrLe_choice_total a b) _
  · rfl

end LivingScroll

namespace LivingScroll

/-- Feat-slot re-admission: when the stored value is non-empty and the
feat's skill list is `any` or contains it (case-sensitively — here both
the re-admission gate and the final filter compare exactly), the candidate
list contains the stored value. -/
theorem buildFeatSkill_readmit (available_skills : List FeatureOptionChoice)
    (skills : List String) (current_skill : String)
    (hne : current_skill ≠ "")
    (hgate : skills = ["any"] ∨ "any" ∈ skills ∨ current_skill ∈ skills) :
    ∃ opt ∈ buildFeatSkillChoices available_skills skills current_skill,
      opt.value = current_skill := by
  simp only [buildFeatSkillChoices]
  by_cases hav : current_skill ∈ available_skills.map (fun opt => opt.value)
  · obtain ⟨opt, hopt, hval⟩ := List.mem_map.mp hav
    have hcont : ((available_skills.map (fun opt => opt.value)).contains
        current_skill) = true := by
      simpa [List.contains, List.elem_eq_mem] using hav
    simp only [hcont, Bool.not_true, Bool.and_false, Bool.false_eq_true, if_false]
    by_cases hany : (skills == ["any"] || skills.contains "any") = true
    · simp only [hany, if_true]
      exact ⟨opt, hopt, hval⟩
    · have hmem : current_skill ∈ skills := by
        rcases hgate with h | h | h
        · exact absurd (by simp [h]) hany
        · refine absurd ?_ hany
          simp only [List.contains, List.elem_eq_mem, Bool.or_eq_true, beq_iff_eq,
            decide_eq_true_eq]
          exact Or.inr h
        · exact h
      simp only [hany, Bool.false_eq_true, if_false, List.mem_filter]
      refine ⟨opt, ⟨hopt, ?_⟩, hval⟩
      rw [hval]
      simpa [List.contains, List.elem_eq_mem] using hmem
  · have hcont : ((available_skills.map (fun opt => opt.value)).contains
        current_skill) = false := by
      simpa [List.contains, List.elem_eq_mem] using hav
    have hbne : (current_skill != "") = true := by simpa using hne
    have hgateb : (skills == ["any"] || skills.contains "any"
        || skills.contains current_skill) = true := by
      rcases hgate with h | h | h
      · simp [h]
      · simp [List.contains, List.elem_eq_mem, h]
      · simp [List.contains, List.elem_eq_mem, h]
    simp only [hcont, hbne, Bool.not_false, Bool.and_true, if_pos, hgateb, if_true]
    by_cases hany : (skills == ["any"] || skills.contains "any") = true
    · simp only [hany, if_true]
      exact ⟨{ label := current_skill, value := current_skill, enabled := true },
        by simp, rfl⟩
    · have hmem : current_skill ∈ skills := by
        rcases hgate with h | h | h
        · exact absurd (by simp [h]) hany
        · refine absurd ?_ hany
          simp only [List.contains, List.elem_eq_mem, Bool.or_eq_true, beq_iff_eq,
            decide_eq_true_eq]
          exact Or.inr h
        · exact h
      simp only [hany, Bool.false_eq_true, if_false, List.mem_filter, List.mem_append]
      refine ⟨{ label := current_skill, value := current_skill, enabled := true },
        ⟨Or.inr (by simp), ?_⟩, rfl⟩
      simpa [List.contains, List.elem_eq_mem] using hmem

unseal List.merge List.mergeSort in
/-- Claim C8 counterexample: the round trip as stated fails on the code.
Committing `stealth` through slot `rogue_skill_1` is reflected on the
hydrated sheet (proficiency level 1), yet the candidate list built for
that same slot — class skill list spelling it `Stealth`, availability
excluding the already-granted skill — is empty: the source's re-admission
test `current_val in skill_list` is case-sensitive, while a committed
value only guarantees case-insensitive membership (the dropdown filter is
`opt.value.lower() in skill_list_lower`), so the stored value is absent
from its own dropdown. -/
theorem pending_choice_round_trip_counterexample :
    dictGet (hydrate {} roundTripData).proficiencies.skills "stealth" 0 = 1
    ∧ buildSkillDropdownChoices [] ["Stealth"] "stealth" = []
    ∧ ¬ ∃ opt ∈ buildSkillDropdownChoices [] ["Stealth"] "stealth",
        opt.value = "stealth" := by
  have heq : buildSkillDropdownChoices [] ["Stealth"] "stealth" = [] := by rfl
  refine ⟨by rfl, heq, ?_⟩
  rw [heq]
  simp

/-- Claim C8 amended: round-trip stability holds per slot kind under the
code's own re-admission tests.  For the class skill dropdown the stored
value is always offered whenever it is non-empty and occurs
case-sensitively in the class skill list; for a feat skill slot it is
always offered whenever it is non-empty and the feat's list is `any` or
contains it case-sensitively (for feat slots that condition is exactly
what committing a value through the slot guarantees, since the feat filter
is itself case-sensitive). -/
theorem pending_choice_round_trip_amended (available_all : List FeatureOptionChoice)
    (skill_list : List String) (current_val : String)
    (available_skills : List FeatureOptionChoice) (feat_skills : List String)
    (current_skill : String) :
    (current_val ∈ skill_list → current_val ≠ "" →
      ∃ opt ∈ buildSkillDropdownChoices available_all skill_list current_val,
        opt.value = current_val)
    ∧ (current_skill ≠ "" →
      (feat_skills = ["any"] ∨ "any" ∈ feat_skills ∨ current_skill ∈ feat_skills) →
      ∃ opt ∈ buildFeatSkillChoices available_skills feat_skills current_skill,
        opt.value = current_skill) :=
  ⟨fun h1 h2 => buildSkillDropdown_readmit available_all skill_list current_val h1 h2,
   fun h1 h2 => buildFeatSkill_readmit available_skills feat_skills current_skill h1 h2⟩

/-- Witness for the amended C8: a slot storing `Stealth` against the class
list `["Stealth"]` with empty availability still offers `Stealth`, and a
feat slot storing `Stealth` against the feat list `["Stealth"]` with empty
availability still offers `Stealth`. -/
theorem pending_choice_round_trip_amended_witness :
    (∃ opt ∈ buildSkillDropdownChoices [] ["Stealth"] "Stealth",
      opt.value = "Stealth")
    ∧ (∃ opt ∈ buildFeatSkillChoices [] ["Stealth"] "Stealth",
      opt.value = "Stealth") :=
  ⟨(pending_choice_round_trip_amended [] ["Stealth"] "Stealth"
      [] ["Stealth"] "Stealth").1 (by decide) (by decide),
   (pending_choice_round_trip_amended [] ["Stealth"] "Stealth"
      [] ["Stealth"] "Stealth").2 (by decide) (Or.inr (Or.inr (by decide)))⟩

end LivingScroll
